import Mathlib

/-!
# Verification of the aether-slash combat-and-navigation core

A shallow embedding of the combat resolution, damage/death, enemy AI,
grid map and A* pathfinding code of the repository, together with proofs
of the spec's testable properties.  Floating point numbers of the source
are modelled as rationals (exact arithmetic); the JavaScript constants
0.5, 1.5 and 1.414 are carried exactly as 1/2, 3/2 and 1414/1000.
-/

namespace AetherSlash

/-! ## Grid map (src/core/map-store.ts, TileType from dungeon-generator) -/

/-- Tile classification, from the dungeon generator module. -/
inductive TileType where
  | VOID
  | FLOOR
  | WALL
  | DOOR
deriving DecidableEq, Repr

/-- The MapStore singleton's state: width, height and the 2D tile array
(`tiles[gridY][gridX]`).  `width = 0` models the store before `init` ran. -/
structure GridMap where
  width : ℕ
  height : ℕ
  tiles : List (List TileType)
deriving DecidableEq, Repr

/-- 2D tile array access `tiles[gridY][gridX]`; an out-of-range JavaScript
index yields `undefined`, which compares unequal to `TileType.WALL`, so the
default `VOID` is a faithful model for the `=== WALL` comparison. -/
def tileAt (m : GridMap) (gridY gridX : ℤ) : TileType :=
  (m.tiles.getD gridY.toNat []).getD gridX.toNat TileType.VOID

/-- `MapStore.isWall(x, z)`: world coordinates are shifted by half the map
size and floored to grid indices; out of bounds counts as wall; an
uninitialized store (width 0) returns `false` immediately. -/
def isWall (m : GridMap) (x z : ℚ) : Bool :=
  if m.width = 0 then false
  else
    let gridX : ℤ := ⌊x + (m.width : ℚ) / 2⌋
    let gridY : ℤ := ⌊z + (m.height : ℚ) / 2⌋
    if gridX < 0 ∨ (m.width : ℤ) ≤ gridX ∨ gridY < 0 ∨ (m.height : ℤ) ≤ gridY then true
    else decide (tileAt m gridY gridX = TileType.WALL)

/-- `isWall` applied to integer cell coordinates, as the pathfinder does. -/
def wallAtZ (m : GridMap) (x y : ℤ) : Bool :=
  isWall m (x : ℚ) (y : ℚ)

/-! ## Pathfinder (src/core/pathfinder.ts)

A* over 8-connected grid cells.  A search node holds a cell, the g/h/f
scores and the parent pointer (`parent: Node | null` becomes a `root`
versus `child` constructor). -/

inductive PNode where
  | root (x y : ℤ) (g h f : ℚ)
  | child (x y : ℤ) (g h f : ℚ) (parent : PNode)
deriving Repr

def PNode.x : PNode → ℤ
  | .root x _ _ _ _ => x
  | .child x _ _ _ _ _ => x

def PNode.y : PNode → ℤ
  | .root _ y _ _ _ => y
  | .child _ y _ _ _ _ => y

def PNode.g : PNode → ℚ
  | .root _ _ g _ _ => g
  | .child _ _ g _ _ _ => g

def PNode.h : PNode → ℚ
  | .root _ _ _ h _ => h
  | .child _ _ _ h _ _ => h

def PNode.f : PNode → ℚ
  | .root _ _ _ _ f => f
  | .child _ _ _ _ f _ => f

/-- Center of a grid cell, `(x + 0.5, y + 0.5)` as the source returns. -/
def center (x y : ℤ) : ℚ × ℚ :=
  ((x : ℚ) + 1/2, (y : ℚ) + 1/2)

/-- Backtracking the parent pointers: the list of tile centers from the
current node back to the start node (before the final `reverse`). -/
def PNode.chain : PNode → List (ℚ × ℚ)
  | .root x y _ _ _ => [center x y]
  | .child x y _ _ _ p => center x y :: p.chain

/-- `openList.find(n => n.x === neighborX && n.y === neighborY)`. -/
def findNode (nx ny : ℤ) : List PNode → Option PNode
  | [] => none
  | n :: rest => if n.x = nx ∧ n.y = ny then some n else findNode nx ny rest

/-- In-place mutation of the node found by `find`: the first node with the
given cell gets the new g score, `f = gScore + existingNode.h`, and the new
parent, all other nodes are untouched. -/
def updateFirst (nx ny : ℤ) (gScore : ℚ) (par : PNode) : List PNode → List PNode
  | [] => []
  | n :: rest =>
    if n.x = nx ∧ n.y = ny then
      PNode.child n.x n.y gScore n.h (gScore + n.h) par :: rest
    else n :: updateFirst nx ny gScore par rest

/-- Stable insertion by f-score (model of the JavaScript `sort` on
`a.f - b.f`, which V8 implements stably). -/
def insertByF (n : PNode) : List PNode → List PNode
  | [] => [n]
  | m :: rest => if m.f ≤ n.f then m :: insertByF n rest else n :: m :: rest

def sortByF : List PNode → List PNode
  | [] => []
  | n :: rest => insertByF n (sortByF rest)

/-- The eight neighbor offsets, in source order. -/
def offsets : List (ℤ × ℤ) :=
  [(0, -1), (0, 1), (-1, 0), (1, 0), (-1, -1), (1, -1), (-1, 1), (1, 1)]

/-- One iteration of the neighbor loop body: skip closed cells, walls and
corner-cutting diagonals; otherwise push a new node or relax the existing
one when the new g score is smaller. -/
def neighborStep (m : GridMap) (endC : ℤ × ℤ) (closed : List (ℤ × ℤ)) (cur : PNode)
    (openL : List PNode) (off : ℤ × ℤ) : List PNode :=
  let nx := cur.x + off.1
  let ny := cur.y + off.2
  if (nx, ny) ∈ closed then openL
  else if wallAtZ m nx ny then openL
  else if (off.1.natAbs = 1 ∧ off.2.natAbs = 1) ∧
      (wallAtZ m (cur.x + off.1) cur.y || wallAtZ m cur.x (cur.y + off.2)) then openL
  else
    let moveCost : ℚ := if off.1.natAbs = 1 ∧ off.2.natAbs = 1 then 1414/1000 else 1
    let gScore := cur.g + moveCost
    match findNode nx ny openL with
    | none =>
      let hScore : ℚ := (((nx - endC.1).natAbs + (ny - endC.2).natAbs : ℕ) : ℚ)
      openL ++ [PNode.child nx ny gScore hScore (gScore + hScore) cur]
    | some e => if gScore < e.g then updateFirst nx ny gScore cur openL else openL

/-- The `while (openList.length > 0)` loop.  The source loop always
terminates (each iteration moves one cell of the finite grid to the closed
set); the fuel argument is only an artifact of the embedding, and `none`
(fuel ran out) is never returned by the source. -/
def astarLoop (m : GridMap) (endC : ℤ × ℤ) :
    ℕ → List PNode → List (ℤ × ℤ) → Option (List (ℚ × ℚ))
  | 0, _, _ => none
  | fuel + 1, openL, closed =>
    match sortByF openL with
    | [] => some []
    | cur :: rest =>
      let closed1 := (cur.x, cur.y) :: closed
      if cur.x = endC.1 ∧ cur.y = endC.2 then
        some cur.chain.reverse
      else
        astarLoop m endC fuel (offsets.foldl (neighborStep m endC closed1 cur) rest) closed1

/-- `Pathfinder.findPath`: floor the world coordinates, fail on a wall
destination, otherwise run A* from the start node (pushed without any wall
check on the start cell). -/
def findPath (m : GridMap) (fuel : ℕ) (startX startY endX endY : ℚ) :
    Option (List (ℚ × ℚ)) :=
  let s : ℤ × ℤ := (⌊startX⌋, ⌊startY⌋)
  let e : ℤ × ℤ := (⌊endX⌋, ⌊endY⌋)
  if wallAtZ m e.1 e.2 then some []
  else astarLoop m e fuel [PNode.root s.1 s.2 0 0 0] []

/-- A well-formed search node: its parent chain consists of cells that
passed the wall check when pushed (every node but the start node is
created only after `isWall` returned false for its cell), terminating in
the start node, whose cell is never checked. -/
def goodN (m : GridMap) (s : ℤ × ℤ) : PNode → Prop
  | .root x y _ _ _ => (x, y) = s
  | .child x y _ _ _ p => wallAtZ m x y = false ∧ goodN m s p

/-! ## Entity component store (src/core/components.ts layout)

Entities are small integers indexing flat component arrays with presence
flags; `f : ℕ → Option α` models the array of one component kind, `none`
meaning the presence flag is off.  Component reads through a `Target`
value use the raw `entityId`, an `ℤ` with the `-1` sentinel; a negative
JavaScript array index reads `undefined`, i.e. component absent. -/

/-- `CombatStateEnum` from components.ts. -/
inductive CState where
  | IDLE
  | MOVING_TO_TARGET
  | ATTACKING
  | DEAD
deriving DecidableEq, Repr

/-- The `CombatStats` component of one entity. -/
structure Stats where
  hp : ℚ
  maxHp : ℚ
  mp : ℚ
  maxMp : ℚ
  attackSpeed : ℚ
  attackRange : ℚ
  damageMin : ℚ
  damageMax : ℚ
  armor : ℚ
  level : ℚ
  healthRegen : ℚ
deriving DecidableEq, Repr

/-- The `Position` component. -/
structure Pos3 where
  x : ℚ
  y : ℚ
  z : ℚ
deriving DecidableEq, Repr

/-- The `MoveTarget` component (`active` is stored as 0/1 in the source). -/
structure MoveTargetC where
  x : ℚ
  y : ℚ
  z : ℚ
  active : Bool
deriving DecidableEq, Repr

/-- The component arrays touched by the combat, AI, damage, regeneration
and death-cleanup systems, plus the player/monster tags and the
progression flag. -/
structure World where
  stats : ℕ → Option Stats
  target : ℕ → Option ℤ
  cstate : ℕ → Option CState
  cooldowns : ℕ → Option ℚ
  moveTarget : ℕ → Option MoveTargetC
  pos : ℕ → Option Pos3
  monster : ℕ → Bool
  player : ℕ → Bool
  progression : ℕ → Bool

/-- The world with every component array empty. -/
def emptyWorld : World :=
  ⟨fun _ => none, fun _ => none, fun _ => none, fun _ => none, fun _ => none,
   fun _ => none, fun _ => false, fun _ => false, fun _ => false⟩

/-- `hasCombatStats(targetEid) ? CombatStats[...]` for a raw `Target`
entityId: a negative index reads no component. -/
def World.statsOf (w : World) (t : ℤ) : Option Stats :=
  if 0 ≤ t then w.stats t.toNat else none

def World.posOf (w : World) (t : ℤ) : Option Pos3 :=
  if 0 ≤ t then w.pos t.toNat else none

def World.cstateOf (w : World) (t : ℤ) : Option CState :=
  if 0 ≤ t then w.cstate t.toNat else none

def World.monsterOf (w : World) (t : ℤ) : Bool :=
  if 0 ≤ t then w.monster t.toNat else false

def World.setStatsN (w : World) (eid : ℕ) (st : Stats) : World :=
  { w with stats := fun e => if e = eid then some st else w.stats e }

/-- Write `CombatStats` through a raw entityId; a negative JavaScript
array index write is a no-op on the typed arrays. -/
def World.setStatsZ (w : World) (t : ℤ) (st : Stats) : World :=
  if 0 ≤ t then w.setStatsN t.toNat st else w

def World.setTargetN (w : World) (eid : ℕ) (t : ℤ) : World :=
  { w with target := fun e => if e = eid then some t else w.target e }

def World.setCStateN (w : World) (eid : ℕ) (c : CState) : World :=
  { w with cstate := fun e => if e = eid then some c else w.cstate e }

def World.setCStateZ (w : World) (t : ℤ) (c : CState) : World :=
  if 0 ≤ t then w.setCStateN t.toNat c else w

def World.setCooldownN (w : World) (eid : ℕ) (v : ℚ) : World :=
  { w with cooldowns := fun e => if e = eid then some v else w.cooldowns e }

def World.setMoveTargetN (w : World) (eid : ℕ) (mt : MoveTargetC) : World :=
  { w with moveTarget := fun e => if e = eid then some mt else w.moveTarget e }

/-! ## Distance (src/combat/physics.ts, getDistanceBetween)

`getDistanceBetween` returns `Infinity` when either entity lacks a
`Position`, else `sqrt(dx² + dy² + dz²)`.  The square root of a rational
is irrational in general, so the embedding carries the *squared* distance
(`none` models `Infinity`) and performs every comparison of the source,
`distance > r` and its negation `distance <= r`, through `distGT`, which
is equivalent on the real numbers: for `d = sqrt(sq) >= 0`,
`d > r  <->  r < 0 \/ sq > r²`. -/

def getDistSq (w : World) (e1 : ℕ) (t : ℤ) : Option ℚ :=
  match w.pos e1, w.posOf t with
  | some p1, some p2 =>
    some ((p2.x - p1.x) ^ 2 + (p2.y - p1.y) ^ 2 + (p2.z - p1.z) ^ 2)
  | _, _ => none

/-- `distance > r`, with `d` the squared distance (`none` = Infinity). -/
def distGT (d : Option ℚ) (r : ℚ) : Bool :=
  match d with
  | none => true
  | some sq => decide (r < 0) || decide (r ^ 2 < sq)

/-- `distance <= r`, the negation of `distance > r` on a total order. -/
def distLE (d : Option ℚ) (r : ℚ) : Bool :=
  !distGT d r

/-! ## Combat resolution system (src/combat/combat-system.ts) -/

/-- An entry of the `pendingAttacks` queue. -/
structure AttackEvent where
  attacker : ℕ
  target : ℤ
  damage : ℚ
deriving DecidableEq, Repr

/-- The body of the `combatSystem` loop for one entity.  `roll` models the
`Math.random()` call of `rollDamage` (a value in `[0,1)`).  Returns the
updated world and the attack events pushed for this entity. -/
def combatStep (w : World) (roll : ℚ) (eid : ℕ) : World × List AttackEvent :=
  match w.stats eid, w.target eid, w.cstate eid with
  | some st, some targ, some cs =>
    if targ = -1 ∨ cs = CState.DEAD then (w, [])
    else
      match w.statsOf targ with
      | none => ((w.setTargetN eid (-1)).setCStateN eid CState.IDLE, [])
      | some ts =>
        if ts.hp ≤ 0 then ((w.setTargetN eid (-1)).setCStateN eid CState.IDLE, [])
        else
          let d := getDistSq w eid targ
          if distGT d st.attackRange then
            let w1 := w.setCStateN eid CState.MOVING_TO_TARGET
            match w1.moveTarget eid, w1.posOf targ with
            | some _, some tp => (w1.setMoveTargetN eid ⟨tp.x, tp.y, tp.z, true⟩, [])
            | _, _ => (w1, [])
          else
            let w1 :=
              match w.moveTarget eid with
              | some mt => w.setMoveTargetN eid { mt with active := false }
              | none => w
            match w1.cooldowns eid with
            | none => (w1, [])
            | some timer =>
              if timer ≤ 0 then
                let w2 := w1.setCStateN eid CState.ATTACKING
                let dmg := st.damageMin + roll * (st.damageMax - st.damageMin)
                let w3 := w2.setCooldownN eid (if 0 < st.attackSpeed then 1 / st.attackSpeed else 1)
                (w3, [⟨eid, targ, dmg⟩])
              else
                (w1.setCStateN eid CState.IDLE, [])
  | _, _, _ => (w, [])

/-- The body of the `cooldownSystem` loop for one entity: a positive
attack timer is decremented by the elapsed time. -/
def cooldownStep (dt : ℚ) (w : World) (eid : ℕ) : World :=
  match w.cooldowns eid with
  | none => w
  | some t => if 0 < t then w.setCooldownN eid (t - dt) else w

/-- `cooldownSystem`: the per-entity decrement over the entity set
(iterated in insertion order, modelled as a list). -/
def cooldownSystem (dt : ℚ) (w : World) (ents : List ℕ) : World :=
  ents.foldl (cooldownStep dt) w

/-! ## Enemy AI system (src/combat/enemy-ai-system.ts) -/

def AGGRO_RANGE : ℚ := 8
def LEASH_RANGE : ℚ := 15

/-- The body of the `enemyAISystem` loop for one monster entity (the
player-missing / player-dead guards live in `aiSystem`). -/
def aiStep (w : World) (playerEid : ℕ) (eid : ℕ) : World :=
  if w.monster eid = false then w
  else
    match w.target eid, w.cstate eid, w.pos eid with
    | some currentTarget, some cs, some _ =>
      if cs = CState.DEAD then w
      else
        let d := getDistSq w eid (playerEid : ℤ)
        if currentTarget = -1 then
          if distLE d AGGRO_RANGE then
            (w.setTargetN eid (playerEid : ℤ)).setCStateN eid CState.MOVING_TO_TARGET
          else w
        else
          if distGT d LEASH_RANGE then
            (w.setTargetN eid (-1)).setCStateN eid CState.IDLE
          else w
    | _, _, _ => w

/-- `enemyAISystem`: guard on a present, living player, then the
per-monster transition over the entity set. -/
def aiSystem (w : World) (playerEid : Option ℕ) (ents : List ℕ) : World :=
  match playerEid with
  | none => w
  | some p =>
    match w.stats p with
    | none => w
    | some pst => if pst.hp ≤ 0 then w else ents.foldl (fun w1 e => aiStep w1 p e) w

/-! ## Damage / death system (src/combat/damage-system.ts) -/

structure DamageEvent where
  target : ℤ
  attacker : ℕ
  damage : ℚ
  isCrit : Bool
  position : Pos3
deriving DecidableEq, Repr

structure DeathEvent where
  entity : ℤ
  killedBy : ℕ
  position : Pos3
  level : ℚ
deriving DecidableEq, Repr

/-- The world together with the event queues and the calls made to the
progression collaborator (`gainXP(entity, amount)`, an external interface
per the spec; the call itself is the observable we record). -/
structure Sim where
  w : World
  damages : List DamageEvent
  deaths : List DeathEvent
  xpGrants : List (ℕ × ℚ)

/-- `calculateMonsterXP(monsterLevel)` from src/core/progression.ts. -/
def calculateMonsterXP (monsterLevel : ℚ) : ℚ :=
  (⌊(10 : ℚ) + monsterLevel * 5⌋ : ℤ)

/-- The crit multiplier: ×1.5 on a crit (the 5% roll is modelled by the
`crit : Bool` parameter), ×1.0 otherwise. -/
def critMultiplier (crit : Bool) : ℚ :=
  if crit then 3/2 else 1

/-- The resolved damage of `applyDamage`:
`max(1, rawDamage * (1 - armor/(armor+100)) * critMultiplier)`. -/
def finalDamage (raw armor : ℚ) (crit : Bool) : ℚ :=
  let reduction := armor / (armor + 100)
  max 1 (raw * (1 - reduction) * critMultiplier crit)

/-- `hasPosition(target) ? snapshot : {0,0,0}`. -/
def posOrZero (w : World) (t : ℤ) : Pos3 :=
  match w.posOf t with
  | some p => p
  | none => ⟨0, 0, 0⟩

/-- `applyDamage(event)`: armor mitigation, crit, HP subtraction, damage
event, death transition with clamp to 0, death event and XP grant. -/
def applyDamage (crit : Bool) (ev : AttackEvent) (s : Sim) : Sim :=
  match s.w.statsOf ev.target with
  | none => s
  | some st =>
    let fd := finalDamage ev.damage st.armor crit
    let hp1 := st.hp - fd
    let w1 := s.w.setStatsZ ev.target { st with hp := hp1 }
    let s1 : Sim :=
      { s with
        w := w1
        damages := s.damages ++ [⟨ev.target, ev.attacker, fd, crit, posOrZero w1 ev.target⟩] }
    if hp1 ≤ 0 then
      let w2 := s1.w.setStatsZ ev.target { st with hp := 0 }
      let w3 :=
        match w2.cstateOf ev.target with
        | some _ => w2.setCStateZ ev.target CState.DEAD
        | none => w2
      let s2 : Sim :=
        { s1 with
          w := w3
          deaths := s1.deaths ++ [⟨ev.target, ev.attacker, posOrZero w3 ev.target, st.level⟩] }
      if s2.w.player ev.attacker && s2.w.monsterOf ev.target && s2.w.progression ev.attacker then
        { s2 with xpGrants := s2.xpGrants ++ [(ev.attacker, calculateMonsterXP st.level)] }
      else s2
    else s1

/-- `damageSystem`: drain the attack queue and apply each event; each
application carries its own independent crit roll. -/
def damageSystem (evs : List (AttackEvent × Bool)) (s : Sim) : Sim :=
  evs.foldl (fun acc p => applyDamage p.2 p.1 acc) s

/-! ## Regeneration system (src/combat/regeneration-system.ts) -/

/-- The body of the `regenerationSystem` loop for one entity. -/
def regenStep (dt : ℚ) (w : World) (eid : ℕ) : World :=
  match w.stats eid with
  | none => w
  | some st =>
    if st.healthRegen ≤ 0 then w
    else if st.maxHp ≤ st.hp then w
    else w.setStatsN eid { st with hp := min (st.hp + st.healthRegen * dt) st.maxHp }

def regenerationSystem (dt : ℚ) (w : World) (ents : List ℕ) : World :=
  ents.foldl (regenStep dt) w

/-! ## Death cleanup system (src/combat/damage-system.ts, deathCleanupSystem) -/

/-- The stale-target scan body: if `other` has a `Target` equal to the
dying entity, clear it to `-1` and reset the state to IDLE.  The source
does not check whether `other` is itself DEAD. -/
def clearTargetStep (deadEid : ℕ) (w : World) (other : ℕ) : World :=
  match w.target other with
  | none => w
  | some t =>
    if t = (deadEid : ℤ) then
      let w1 := w.setTargetN other (-1)
      match w1.cstate other with
      | some _ => w1.setCStateN other CState.IDLE
      | none => w1
    else w

/-- `clearEntityComponents(eid)` from components.ts: it zeroes every entry
of `ComponentFlags` (position, velocity, moveTarget, renderable, speed,
player, monster, itemDrop, combatStats, target, cooldowns, combatState)
for the entity and deletes its `ItemDataStore` entry.  A cleared presence
flag makes the component read as absent, i.e. `none` here; of the flags,
this world models combatStats, target, combatState, cooldowns, moveTarget,
position, monster and player.  The progression flag lives in the separate
`ProgressionFlags` object of progression.ts and is *not* part of
`ComponentFlags`, so it is left untouched. -/
def clearEntityComponents (w : World) (eid : ℕ) : World :=
  { stats := fun e => if e = eid then none else w.stats e
    target := fun e => if e = eid then none else w.target e
    cstate := fun e => if e = eid then none else w.cstate e
    cooldowns := fun e => if e = eid then none else w.cooldowns e
    moveTarget := fun e => if e = eid then none else w.moveTarget e
    pos := fun e => if e = eid then none else w.pos e
    monster := fun e => if e = eid then false else w.monster e
    player := fun e => if e = eid then false else w.player e
    progression := w.progression }

/-- Cleanup of one dead entity: scan all entities for stale targets, then
(render callback and physics removal are external effects) clear the
entity's components and release the id. -/
def cleanupEntity (ents : List ℕ) (w : World) (deadEid : ℕ) : World :=
  clearEntityComponents (ents.foldl (clearTargetStep deadEid) w) deadEid

/-- `deathCleanupSystem`: collect the DEAD entities, then clean each up;
returns the cleaned-up ids as the source does. -/
def deathCleanupSystem (w : World) (ents : List ℕ) : World × List ℕ :=
  let dead := ents.filter fun e => decide (w.cstate e = some CState.DEAD)
  (dead.foldl (cleanupEntity ents) w, dead)

/-! ## Concrete fixtures for the closed instances below -/

/-- A 3×1 dungeon whose leftmost cell is a wall: wall at world x=-1,
floor at x=0 and x=1 (grid x = world x + 1.5 floored, grid z = world z + 0.5
floored). -/
def cexMap : GridMap := ⟨3, 1, [[TileType.WALL, TileType.FLOOR, TileType.FLOOR]]⟩

/-- The MapStore before `init` ran. -/
def uninitMap : GridMap := ⟨0, 0, []⟩

/-- hp, maxHp, mp, maxMp, attackSpeed, attackRange, damageMin, damageMax,
armor, level, healthRegen. -/
def stPlayer : Stats := ⟨100, 100, 50, 50, 2, 5, 3, 5, 0, 1, 1⟩

def stMonster : Stats := ⟨20, 20, 0, 0, 1, 1, 1, 2, 100, 2, 0⟩

def stLowHp : Stats := ⟨10, 50, 0, 0, 1, 1, 1, 2, 0, 3, 0⟩

def stZeroHp : Stats := ⟨0, 20, 0, 0, 1, 1, 1, 2, 0, 2, 0⟩

def stRegen : Stats := ⟨5, 10, 0, 0, 1, 1, 1, 2, 0, 1, 2⟩

/-- Attacker 0 (range 5, damage [3,5), speed 2, timer ready) one unit away
from victim 1. -/
def wCombat : World :=
  { emptyWorld with
    stats := fun e => if e = 0 then some stPlayer else if e = 1 then some stMonster else none
    target := fun e => if e = 0 then some 1 else none
    cstate := fun e => if e = 0 then some CState.IDLE else none
    cooldowns := fun e => if e = 0 then some 0 else none
    pos := fun e => if e = 0 then some ⟨0, 0, 0⟩ else if e = 1 then some ⟨1, 0, 0⟩ else none }

/-- The same pair right after an attack: attacker state ATTACKING, attack
timer reset to `1/attackSpeed = 0.5`. -/
def wCombatHalf : World :=
  { wCombat with
    cstate := fun e => if e = 0 then some CState.ATTACKING else none
    cooldowns := fun e => if e = 0 then some (1/2) else none }

/-- Player 0 at the origin; untargeted monster 1 at distance 5 (inside the
aggro range 8); engaged monster 2 at distance 12 (inside the leash band). -/
def wAI : World :=
  { emptyWorld with
    stats := fun e =>
      if e = 0 then some stPlayer else if e = 1 ∨ e = 2 then some stMonster else none
    target := fun e => if e = 1 then some (-1) else if e = 2 then some 0 else none
    cstate := fun e =>
      if e = 1 then some CState.IDLE
      else if e = 2 then some CState.MOVING_TO_TARGET else none
    pos := fun e =>
      if e = 0 then some ⟨0, 0, 0⟩
      else if e = 1 then some ⟨5, 0, 0⟩
      else if e = 2 then some ⟨12, 0, 0⟩ else none
    monster := fun e => e == 1 || e == 2
    player := fun e => e == 0 }

/-- Attacker 0 with a live target 1 that has no Position component. -/
def wNoPos : World :=
  { emptyWorld with
    stats := fun e => if e = 0 then some stPlayer else if e = 1 then some stMonster else none
    target := fun e => if e = 0 then some 1 else none
    cstate := fun e => if e = 0 then some CState.IDLE else none
    cooldowns := fun e => if e = 0 then some 0 else none
    pos := fun e => if e = 0 then some ⟨0, 0, 0⟩ else none }

/-- Victim 1 with armor 100 and 20 hp (the spec's armor-mitigation
scenario). -/
def simMit : Sim :=
  ⟨{ emptyWorld with
      stats := fun e => if e = 1 then some stMonster else none
      cstate := fun e => if e = 1 then some CState.IDLE else none
      pos := fun e => if e = 1 then some ⟨2, 0, 0⟩ else none },
    [], [], []⟩

/-- Victim 1 with 10 hp and no armor, about to take a 50 raw-damage hit
(the spec's lethal-hit scenario). -/
def simLethal : Sim :=
  ⟨{ emptyWorld with
      stats := fun e => if e = 1 then some stLowHp else none
      cstate := fun e => if e = 1 then some CState.IDLE else none
      pos := fun e => if e = 1 then some ⟨3, 0, 0⟩ else none },
    [], [], []⟩

/-- Monster 1 already at 0 hp (components not yet cleaned up), player 0
with progression about to hit it a second time. -/
def simZombie : Sim :=
  ⟨{ emptyWorld with
      stats := fun e => if e = 0 then some stPlayer else if e = 1 then some stZeroHp else none
      cstate := fun e => if e = 1 then some CState.DEAD else none
      pos := fun e => if e = 1 then some ⟨4, 0, 0⟩ else none
      monster := fun e => e == 1
      player := fun e => e == 0
      progression := fun e => e == 0 },
    [], [], []⟩

/-- Entity 2 regenerating: 5/10 hp, 2 hp per second. -/
def wRegen : World :=
  { emptyWorld with stats := fun e => if e = 2 then some stRegen else none }

/-- Two entities that died in the same tick, entity 2 still targeting
entity 1. -/
def cexW : World :=
  { emptyWorld with
    cstate := fun e => if e = 1 ∨ e = 2 then some CState.DEAD else none
    target := fun e => if e = 2 then some 1 else if e = 1 then some (-1) else none }

/-- A lone dead entity 3. -/
def wDeadSolo : World :=
  { emptyWorld with cstate := fun e => if e = 3 then some CState.DEAD else none }

/-! ## Frame lemmas for the component setters -/

theorem statsOf_pos (w : World) (t : ℤ) (st : Stats) (h : w.statsOf t = some st) : 0 ≤ t := by
  by_contra hneg
  simp [World.statsOf, hneg] at h

theorem setStatsZ_statsOf_self (w : World) (t : ℤ) (st : Stats) (h : 0 ≤ t) :
    (w.setStatsZ t st).statsOf t = some st := by
  simp [World.setStatsZ, World.setStatsN, World.statsOf, h]

theorem setCStateZ_statsOf (w : World) (t u : ℤ) (c : CState) :
    (w.setCStateZ t c).statsOf u = w.statsOf u := by
  unfold World.setCStateZ World.setCStateN World.statsOf
  split
  · split <;> rfl
  · rfl

theorem setStatsZ_player (w : World) (t : ℤ) (st : Stats) :
    (w.setStatsZ t st).player = w.player := by
  unfold World.setStatsZ World.setStatsN
  split <;> rfl

theorem setStatsZ_monster (w : World) (t : ℤ) (st : Stats) :
    (w.setStatsZ t st).monster = w.monster := by
  unfold World.setStatsZ World.setStatsN
  split <;> rfl

theorem setStatsZ_progression (w : World) (t : ℤ) (st : Stats) :
    (w.setStatsZ t st).progression = w.progression := by
  unfold World.setStatsZ World.setStatsN
  split <;> rfl

theorem setCStateZ_player (w : World) (t : ℤ) (c : CState) :
    (w.setCStateZ t c).player = w.player := by
  unfold World.setCStateZ World.setCStateN
  split <;> rfl

theorem setCStateZ_monster (w : World) (t : ℤ) (c : CState) :
    (w.setCStateZ t c).monster = w.monster := by
  unfold World.setCStateZ World.setCStateN
  split <;> rfl

theorem setCStateZ_progression (w : World) (t : ℤ) (c : CState) :
    (w.setCStateZ t c).progression = w.progression := by
  unfold World.setCStateZ World.setCStateN
  split <;> rfl

theorem monsterOf_setStatsZ (w : World) (t u : ℤ) (st : Stats) :
    (w.setStatsZ t st).monsterOf u = w.monsterOf u := by
  unfold World.monsterOf
  rw [setStatsZ_monster]

theorem monsterOf_setCStateZ (w : World) (t u : ℤ) (c : CState) :
    (w.setCStateZ t c).monsterOf u = w.monsterOf u := by
  unfold World.monsterOf
  rw [setCStateZ_monster]

theorem setMoveTargetN_cooldowns (w : World) (eid : ℕ) (mt : MoveTargetC) :
    (w.setMoveTargetN eid mt).cooldowns = w.cooldowns := rfl

theorem setMoveTargetN_cstate (w : World) (eid : ℕ) (mt : MoveTargetC) :
    (w.setMoveTargetN eid mt).cstate = w.cstate := rfl

theorem setCooldownN_cstate (w : World) (eid : ℕ) (v : ℚ) :
    (w.setCooldownN eid v).cstate = w.cstate := rfl

theorem setCStateN_cstate_self (w : World) (eid : ℕ) (c : CState) :
    (w.setCStateN eid c).cstate eid = some c := by
  simp [World.setCStateN]

theorem setCooldownN_cooldowns_self (w : World) (eid : ℕ) (v : ℚ) :
    (w.setCooldownN eid v).cooldowns eid = some v := by
  simp [World.setCooldownN]

theorem cooldownStep_stats (dt : ℚ) (w : World) (e : ℕ) :
    (cooldownStep dt w e).stats = w.stats := by
  unfold cooldownStep
  split
  · rfl
  · split <;> rfl

theorem cooldownStep_target (dt : ℚ) (w : World) (e : ℕ) :
    (cooldownStep dt w e).target = w.target := by
  unfold cooldownStep
  split
  · rfl
  · split <;> rfl

theorem cooldownStep_cstate (dt : ℚ) (w : World) (e : ℕ) :
    (cooldownStep dt w e).cstate = w.cstate := by
  unfold cooldownStep
  split
  · rfl
  · split <;> rfl

theorem cooldownStep_pos (dt : ℚ) (w : World) (e : ℕ) :
    (cooldownStep dt w e).pos = w.pos := by
  unfold cooldownStep
  split
  · rfl
  · split <;> rfl

theorem statsOf_cooldownStep (dt : ℚ) (w : World) (e : ℕ) (t : ℤ) :
    (cooldownStep dt w e).statsOf t = w.statsOf t := by
  unfold World.statsOf
  rw [cooldownStep_stats]

theorem getDistSq_cooldownStep (dt : ℚ) (w : World) (e a : ℕ) (t : ℤ) :
    getDistSq (cooldownStep dt w e) a t = getDistSq w a t := by
  unfold getDistSq World.posOf
  rw [cooldownStep_pos]

/-! ## C7 — uninitialized map queries -/

/-- C7, counterexample: `isWall` queried before the map is initialized
does not fail fast; it silently returns the normal walkable verdict
`false`. -/
theorem isWall_uninitialized_cex : isWall uninitMap 0 0 = false := rfl

/-- C7, amended: on an uninitialized map store (width 0), `isWall` returns
`false` (treats every position as walkable) for every query instead of
raising a hard error. -/
theorem isWall_uninitialized_returns_false (m : GridMap) (x z : ℚ)
    (h : m.width = 0) : isWall m x z = false := by
  simp [isWall, h]

/-- Closed instance of `isWall_uninitialized_returns_false`. -/
theorem isWall_uninitialized_returns_false_witness :
    uninitMap.width = 0 ∧ isWall uninitMap 5 7 = false :=
  ⟨rfl, isWall_uninitialized_returns_false uninitMap 5 7 rfl⟩

/-! ## C8 — armor monotonicity -/

/-- C8: for fixed raw damage, on a non-crit hit the armor reduction
`armor/(armor+100)` is strictly increasing and below 1, and the resolved
damage at the larger armor is strictly smaller, or both hits sit at the
floor value 1. -/
theorem armor_monotonicity (raw a1 a2 : ℚ) (h0 : 0 ≤ a1) (h12 : a1 < a2) :
    a1 / (a1 + 100) < a2 / (a2 + 100) ∧
    a2 / (a2 + 100) < 1 ∧
    (finalDamage raw a2 false < finalDamage raw a1 false ∨
      (finalDamage raw a1 false = 1 ∧ finalDamage raw a2 false = 1)) := by
  have d1 : (0 : ℚ) < a1 + 100 := by linarith
  have d2 : (0 : ℚ) < a2 + 100 := by linarith
  have hred : a1 / (a1 + 100) < a2 / (a2 + 100) := by
    rw [div_lt_div_iff₀ d1 d2]; nlinarith
  have hlt1 : a2 / (a2 + 100) < 1 := by
    rw [div_lt_one d2]; linarith
  refine ⟨hred, hlt1, ?_⟩
  have hr2pos : 0 < 1 - a2 / (a2 + 100) := by linarith
  have hrlt : 1 - a2 / (a2 + 100) < 1 - a1 / (a1 + 100) := by linarith
  simp only [finalDamage, critMultiplier, Bool.false_eq_true, if_false, mul_one]
  rcases le_or_lt raw 0 with hraw | hraw
  · right
    constructor <;> · exact max_eq_left (by nlinarith)
  · have hin : raw * (1 - a2 / (a2 + 100)) < raw * (1 - a1 / (a1 + 100)) := by nlinarith
    rcases le_or_lt (raw * (1 - a1 / (a1 + 100))) 1 with h1 | h1
    · exact Or.inr ⟨max_eq_left h1, max_eq_left (by linarith)⟩
    · refine Or.inl ?_
      rw [max_eq_right h1.le]
      exact max_lt h1 hin

/-- Closed instance of `armor_monotonicity` at raw 20, armor 0 versus 100
(the spec's armor-mitigation numbers). -/
theorem armor_monotonicity_witness :
    (0 : ℚ) / (0 + 100) < 100 / (100 + 100) ∧
    (100 : ℚ) / (100 + 100) < 1 ∧
    (finalDamage 20 100 false < finalDamage 20 0 false ∨
      (finalDamage 20 0 false = 1 ∧ finalDamage 20 100 false = 1)) :=
  armor_monotonicity 20 0 100 le_rfl (by norm_num)

/-! ## C1 — damage floor and formula -/

/-- C1: an attack on a target with CombatStats resolves to exactly
`max(1, raw * (1 - armor/(armor+100)) * critMultiplier)`, recorded in the
emitted damage event, and is therefore at least 1 however large the armor
is. -/
theorem damage_floor_formula (crit : Bool) (ev : AttackEvent) (s : Sim) (st : Stats)
    (hst : s.w.statsOf ev.target = some st) (harm : 0 ≤ st.armor) (hraw : 0 < ev.damage) :
    ∃ p, (applyDamage crit ev s).damages =
        s.damages ++ [⟨ev.target, ev.attacker, finalDamage ev.damage st.armor crit, crit, p⟩] ∧
      finalDamage ev.damage st.armor crit =
        max 1 (ev.damage * (1 - st.armor / (st.armor + 100)) * critMultiplier crit) ∧
      1 ≤ finalDamage ev.damage st.armor crit := by
  refine ⟨posOrZero
    (s.w.setStatsZ ev.target { st with hp := st.hp - finalDamage ev.damage st.armor crit })
    ev.target, ?_, rfl, le_max_left _ _⟩
  simp only [applyDamage, hst]
  split
  · split
    · rfl
    · rfl
  · rfl

/-- Closed instance of `damage_floor_formula`: raw 20 against armor 100,
no crit (the spec's armor-mitigation scenario). -/
theorem damage_floor_formula_witness :
    0 ≤ stMonster.armor ∧ (0 : ℚ) < 20 ∧
    ∃ p, (applyDamage false ⟨0, 1, 20⟩ simMit).damages =
        simMit.damages ++
          [⟨1, 0, finalDamage 20 stMonster.armor false, false, p⟩] ∧
      finalDamage 20 stMonster.armor false =
        max 1 (20 * (1 - stMonster.armor / (stMonster.armor + 100)) * critMultiplier false) ∧
      1 ≤ finalDamage 20 stMonster.armor false :=
  ⟨by norm_num [stMonster], by norm_num,
    damage_floor_formula false ⟨0, 1, 20⟩ simMit stMonster rfl
      (by norm_num [stMonster]) (by norm_num)⟩

/-! ## C3 — HP bounds after damage and regeneration -/

/-- C3: assuming `0 <= hp <= maxHp` beforehand, immediately after
`applyDamage` the target's hp is back in `[0, maxHp]` (clamped to exactly
0 whenever it would drop to or below 0), and immediately after a
regeneration update the entity's hp is still in `[0, maxHp]` (never raised
above maxHp). -/
theorem hp_bounds :
    (∀ (crit : Bool) (ev : AttackEvent) (s : Sim) (st : Stats),
      s.w.statsOf ev.target = some st → 0 ≤ st.hp → st.hp ≤ st.maxHp →
      ∃ st2, (applyDamage crit ev s).w.statsOf ev.target = some st2 ∧
        0 ≤ st2.hp ∧ st2.hp ≤ st2.maxHp ∧ st2.maxHp = st.maxHp ∧
        (st.hp - finalDamage ev.damage st.armor crit ≤ 0 → st2.hp = 0)) ∧
    (∀ (dt : ℚ) (w : World) (eid : ℕ) (st : Stats),
      w.stats eid = some st → 0 ≤ st.hp → st.hp ≤ st.maxHp → 0 ≤ dt →
      ∃ st2, (regenStep dt w eid).stats eid = some st2 ∧
        0 ≤ st2.hp ∧ st2.hp ≤ st2.maxHp ∧ st2.maxHp = st.maxHp) := by
  constructor
  · intro crit ev s st hst h0 h1
    have ht : 0 ≤ ev.target := statsOf_pos _ _ _ hst
    have hfd : 1 ≤ finalDamage ev.damage st.armor crit := le_max_left _ _
    by_cases hle : st.hp - finalDamage ev.damage st.armor crit ≤ 0
    · refine ⟨{ st with hp := 0 }, ?_, le_rfl, ?_, rfl, fun _ => rfl⟩
      · simp only [applyDamage, hst, if_pos hle]
        split
        · split
          · rw [setCStateZ_statsOf, setStatsZ_statsOf_self _ _ _ ht]
          · rw [setStatsZ_statsOf_self _ _ _ ht]
        · split
          · rw [setCStateZ_statsOf, setStatsZ_statsOf_self _ _ _ ht]
          · rw [setStatsZ_statsOf_self _ _ _ ht]
      · show (0 : ℚ) ≤ st.maxHp
        linarith
    · refine ⟨{ st with hp := st.hp - finalDamage ev.damage st.armor crit }, ?_, ?_, ?_, rfl,
        fun h => absurd h hle⟩
      · simp only [applyDamage, hst, if_neg hle]
        exact setStatsZ_statsOf_self _ _ _ ht
      · show (0 : ℚ) ≤ st.hp - finalDamage ev.damage st.armor crit
        push_neg at hle
        linarith
      · show st.hp - finalDamage ev.damage st.armor crit ≤ st.maxHp
        linarith
  · intro dt w eid st hst h0 h1 hdt
    by_cases hr : st.healthRegen ≤ 0
    · exact ⟨st, by simp only [regenStep, hst, if_pos hr], h0, h1, rfl⟩
    · by_cases hful : st.maxHp ≤ st.hp
      · exact ⟨st, by simp only [regenStep, hst, if_neg hr, if_pos hful], h0, h1, rfl⟩
      · refine ⟨{ st with hp := min (st.hp + st.healthRegen * dt) st.maxHp }, ?_, ?_, ?_, rfl⟩
        · simp only [regenStep, hst, if_neg hr, if_neg hful, World.setStatsN]
          simp
        · have : 0 ≤ st.healthRegen * dt :=
            mul_nonneg (le_of_lt (lt_of_not_le hr)) hdt
          exact le_min (by linarith) (by linarith)
        · exact min_le_right _ _

/-- Closed instance of `hp_bounds`: the lethal-hit scenario (raw 50 into
10 hp) clamps to 0, and one second of regeneration at 2 hp/s from 5/10 hp
stays within bounds. -/
theorem hp_bounds_witness :
    (∃ st2, (applyDamage false ⟨0, 1, 50⟩ simLethal).w.statsOf 1 = some st2 ∧
      0 ≤ st2.hp ∧ st2.hp ≤ st2.maxHp ∧ st2.maxHp = stLowHp.maxHp ∧
      (stLowHp.hp - finalDamage 50 stLowHp.armor false ≤ 0 → st2.hp = 0)) ∧
    (∃ st2, (regenStep 1 wRegen 2).stats 2 = some st2 ∧
      0 ≤ st2.hp ∧ st2.hp ≤ st2.maxHp ∧ st2.maxHp = stRegen.maxHp) :=
  ⟨hp_bounds.1 false ⟨0, 1, 50⟩ simLethal stLowHp rfl
      (by norm_num [stLowHp]) (by norm_num [stLowHp]),
    hp_bounds.2 1 wRegen 2 stRegen rfl
      (by norm_num [stRegen]) (by norm_num [stRegen]) (by norm_num)⟩

/-! ## C9 — one death event per lethal hit, re-entered on already-dead targets -/

/-- C9: an attack event applied to a target whose hp is already 0 (its
components not yet cleaned up) re-enters the death branch — the resolved
damage being at least 1 — so an additional DeathEvent is enqueued for the
same entity, and when the attacker is a player-tagged entity with
progression and the target monster-tagged, `gainXP` is invoked again. -/
theorem death_event_per_lethal_hit (crit : Bool) (ev : AttackEvent) (s : Sim) (st : Stats)
    (hst : s.w.statsOf ev.target = some st) (hhp : st.hp = 0) :
    (∃ p, (applyDamage crit ev s).deaths =
      s.deaths ++ [⟨ev.target, ev.attacker, p, st.level⟩]) ∧
    (s.w.player ev.attacker = true → s.w.monsterOf ev.target = true →
      s.w.progression ev.attacker = true →
      (applyDamage crit ev s).xpGrants =
        s.xpGrants ++ [(ev.attacker, calculateMonsterXP st.level)]) := by
  have hfd : 1 ≤ finalDamage ev.damage st.armor crit := le_max_left _ _
  have hle : st.hp - finalDamage ev.damage st.armor crit ≤ 0 := by rw [hhp]; linarith
  constructor
  · simp only [applyDamage, hst, if_pos hle]
    split <;> exact ⟨_, rfl⟩
  · intro hpl hmo hpr
    simp only [applyDamage, hst, if_pos hle]
    split
    · rfl
    · rename_i hcond
      exfalso
      apply hcond
      split
      · rw [setCStateZ_player, setStatsZ_player, setStatsZ_player,
          monsterOf_setCStateZ, monsterOf_setStatsZ, monsterOf_setStatsZ,
          setCStateZ_progression, setStatsZ_progression, setStatsZ_progression,
          hpl, hmo, hpr]
        rfl
      · rw [setStatsZ_player, setStatsZ_player,
          monsterOf_setStatsZ, monsterOf_setStatsZ,
          setStatsZ_progression, setStatsZ_progression,
          hpl, hmo, hpr]
        rfl

/-- Closed instance of `death_event_per_lethal_hit`: player 0 hits monster
1, which is already at 0 hp, and a second DeathEvent plus XP grant are
produced. -/
theorem death_event_per_lethal_hit_witness :
    stZeroHp.hp = 0 ∧
    (∃ p, (applyDamage false ⟨0, 1, 7⟩ simZombie).deaths =
      simZombie.deaths ++ [⟨1, 0, p, stZeroHp.level⟩]) ∧
    (applyDamage false ⟨0, 1, 7⟩ simZombie).xpGrants =
      simZombie.xpGrants ++ [(0, calculateMonsterXP stZeroHp.level)] := by
  have h := death_event_per_lethal_hit false ⟨0, 1, 7⟩ simZombie stZeroHp rfl rfl
  exact ⟨rfl, h.1, h.2 rfl rfl rfl⟩

/-! ## C10 — missing Position means infinite distance, hence chase not attack -/

/-- C10: when either endpoint lacks a Position component the distance is
Infinity (`none` in this embedding), and the combat system then treats the
live target as out of attack range: state becomes MOVING_TO_TARGET and no
AttackEvent is enqueued for this entity. -/
theorem missing_position_unreachable (w : World) (roll : ℚ) (eid : ℕ) (targ : ℤ)
    (st ts : Stats) (cs : CState)
    (hs : w.stats eid = some st) (ht : w.target eid = some targ) (hc : w.cstate eid = some cs)
    (hne : targ ≠ -1) (hnd : cs ≠ CState.DEAD)
    (hts : w.statsOf targ = some ts) (hhp : 0 < ts.hp)
    (hnopos : w.pos eid = none ∨ w.posOf targ = none) :
    getDistSq w eid targ = none ∧
    ((combatStep w roll eid).1).cstate eid = some CState.MOVING_TO_TARGET ∧
    (combatStep w roll eid).2 = [] := by
  have hd : getDistSq w eid targ = none := by
    rcases hnopos with h | h
    · cases h2 : w.posOf targ <;> simp [getDistSq, h, h2]
    · cases h2 : w.pos eid <;> simp [getDistSq, h, h2]
  have hdt : distGT (getDistSq w eid targ) st.attackRange = true := by rw [hd]; rfl
  refine ⟨hd, ?_, ?_⟩ <;>
  · simp only [combatStep, hs, ht, hc, hts]
    rw [if_neg (by simp [hne, hnd]), if_neg (not_le.mpr hhp), hdt, if_pos rfl]
    split <;> simp [World.setMoveTargetN, World.setCStateN]

/-! ## C5 — aggro at 8, leash at 15, no flicker in the band -/

/-- C5: a monster processed by the enemy AI system acquires the player
(state MOVING_TO_TARGET) exactly when it is untargeted and the distance to
the player is ≤ 8; once engaged it is left untouched — keeping its target —
unless the distance exceeds 15, so an engaged monster in the 8–15 band
never de-aggroes. -/
theorem aggro_and_leash (w : World) (p eid : ℕ) (targ : ℤ) (cs : CState) (pp : Pos3)
    (hm : w.monster eid = true) (ht : w.target eid = some targ)
    (hc : w.cstate eid = some cs) (hpos : w.pos eid = some pp)
    (hnd : cs ≠ CState.DEAD) :
    (targ = -1 → distLE (getDistSq w eid (p : ℤ)) AGGRO_RANGE = true →
      (aiStep w p eid).target eid = some (p : ℤ) ∧
      (aiStep w p eid).cstate eid = some CState.MOVING_TO_TARGET) ∧
    (targ = -1 → distLE (getDistSq w eid (p : ℤ)) AGGRO_RANGE = false →
      aiStep w p eid = w) ∧
    (targ ≠ -1 → distGT (getDistSq w eid (p : ℤ)) LEASH_RANGE = false →
      aiStep w p eid = w) ∧
    (targ ≠ -1 → distGT (getDistSq w eid (p : ℤ)) LEASH_RANGE = true →
      (aiStep w p eid).target eid = some (-1) ∧
      (aiStep w p eid).cstate eid = some CState.IDLE) := by
  refine ⟨?_, ?_, ?_, ?_⟩
  · intro he hdist
    simp only [aiStep, hm, ht, hc, hpos]
    rw [if_neg (by simp), if_neg hnd, if_pos he, if_pos hdist]
    simp [World.setTargetN, World.setCStateN]
  · intro he hdist
    simp only [aiStep, hm, ht, hc, hpos]
    rw [if_neg (by simp), if_neg hnd, if_pos he, if_neg (by simp [hdist])]
  · intro he hdist
    simp only [aiStep, hm, ht, hc, hpos]
    rw [if_neg (by simp), if_neg hnd, if_neg he, if_neg (by simp [hdist])]
  · intro he hdist
    simp only [aiStep, hm, ht, hc, hpos]
    rw [if_neg (by simp), if_neg hnd, if_neg he, if_pos hdist]
    simp [World.setTargetN, World.setCStateN]

/-- Closed instance of `aggro_and_leash`: monster 1 at distance 5 aggroes
onto player 0; engaged monster 2 at distance 12 (inside the 8–15 band) is
left exactly as it was. -/
theorem aggro_and_leash_witness :
    ((aiStep wAI 0 1).target 1 = some 0 ∧
      (aiStep wAI 0 1).cstate 1 = some CState.MOVING_TO_TARGET) ∧
    aiStep wAI 0 2 = wAI := by
  constructor
  · exact (aggro_and_leash wAI 0 1 (-1) CState.IDLE ⟨5, 0, 0⟩ rfl rfl rfl rfl
      (by simp)).1 rfl
      (by norm_num [distLE, distGT, getDistSq, wAI, emptyWorld, World.posOf, AGGRO_RANGE])
  · exact (aggro_and_leash wAI 0 2 0 CState.MOVING_TO_TARGET ⟨12, 0, 0⟩ rfl rfl rfl rfl
      (by simp)).2.2.1 (by simp)
      (by norm_num [distGT, getDistSq, wAI, emptyWorld, World.posOf, LEASH_RANGE])

/-! ## C6 — cooldown gating of attacks -/

/-- C6: an entity in attack range of a live target, with Cooldowns
attached, attacks exactly when its timer is ≤ 0 — state ATTACKING, exactly
one AttackEvent whose damage is `damageMin + roll * (damageMax -
damageMin)` (hence in `[damageMin, damageMax)` for a `Math.random()` roll
in `[0,1)`), timer reset to `1/attackSpeed` (or 1 when attackSpeed ≤ 0) —
and is refused when the timer is > 0: state IDLE, no AttackEvent. -/
theorem cooldown_gate (w : World) (roll : ℚ) (eid : ℕ) (targ : ℤ)
    (st ts : Stats) (cs : CState) (timer : ℚ)
    (hs : w.stats eid = some st) (ht : w.target eid = some targ) (hc : w.cstate eid = some cs)
    (hne : targ ≠ -1) (hnd : cs ≠ CState.DEAD)
    (hts : w.statsOf targ = some ts) (hhp : 0 < ts.hp)
    (hrange : distGT (getDistSq w eid targ) st.attackRange = false)
    (hcd : w.cooldowns eid = some timer)
    (hroll0 : 0 ≤ roll) (hroll1 : roll < 1) (hmm : st.damageMin < st.damageMax) :
    (timer ≤ 0 →
      (combatStep w roll eid).1.cstate eid = some CState.ATTACKING ∧
      (combatStep w roll eid).2 =
        [⟨eid, targ, st.damageMin + roll * (st.damageMax - st.damageMin)⟩] ∧
      st.damageMin ≤ st.damageMin + roll * (st.damageMax - st.damageMin) ∧
      st.damageMin + roll * (st.damageMax - st.damageMin) < st.damageMax ∧
      (combatStep w roll eid).1.cooldowns eid =
        some (if 0 < st.attackSpeed then 1 / st.attackSpeed else 1)) ∧
    (0 < timer →
      (combatStep w roll eid).1.cstate eid = some CState.IDLE ∧
      (combatStep w roll eid).2 = []) := by
  constructor
  · intro htimer
    have hlo : st.damageMin ≤ st.damageMin + roll * (st.damageMax - st.damageMin) := by
      nlinarith
    have hhi : st.damageMin + roll * (st.damageMax - st.damageMin) < st.damageMax := by
      nlinarith
    refine ⟨?_, ?_, hlo, hhi, ?_⟩ <;>
    · simp only [combatStep, hs, ht, hc, hts]
      rw [if_neg (by simp [hne, hnd]), if_neg (not_le.mpr hhp), hrange]
      simp only [Bool.false_eq_true, if_false]
      cases hmt : w.moveTarget eid
      all_goals
        simp only [hmt, setMoveTargetN_cooldowns, hcd]
        rw [if_pos htimer]
      all_goals
        simp [setCooldownN_cstate, setCStateN_cstate_self, setCooldownN_cooldowns_self]
  · intro htimer
    constructor <;>
    · simp only [combatStep, hs, ht, hc, hts]
      rw [if_neg (by simp [hne, hnd]), if_neg (not_le.mpr hhp), hrange]
      simp only [Bool.false_eq_true, if_false]
      cases hmt : w.moveTarget eid
      all_goals
        simp only [hmt, setMoveTargetN_cooldowns, hcd]
        rw [if_neg (not_le.mpr htimer)]
      all_goals
        simp [setMoveTargetN_cstate, setCStateN_cstate_self]

/-- Closed instance of `cooldown_gate`, the spec's cooldown-gate scenario:
attackSpeed 2 resets the timer to 0.5 after an attack; after a 0.3s
decrement by the cooldown system the next attempt is refused (IDLE, no
event); after the remaining 0.2s decrement the timer is 0 and the attack
succeeds. -/
theorem cooldown_gate_witness :
    (if 0 < stPlayer.attackSpeed then 1 / stPlayer.attackSpeed else (1 : ℚ)) = 1/2 ∧
    ((combatStep wCombat 0 0).1.cstate 0 = some CState.ATTACKING ∧
      (combatStep wCombat 0 0).2 =
        [⟨0, 1, stPlayer.damageMin + 0 * (stPlayer.damageMax - stPlayer.damageMin)⟩] ∧
      (combatStep wCombat 0 0).1.cooldowns 0 =
        some (if 0 < stPlayer.attackSpeed then 1 / stPlayer.attackSpeed else 1)) ∧
    ((cooldownStep (3/10) wCombatHalf 0).cooldowns 0 = some (1/5) ∧
      (combatStep (cooldownStep (3/10) wCombatHalf 0) 0 0).1.cstate 0 = some CState.IDLE ∧
      (combatStep (cooldownStep (3/10) wCombatHalf 0) 0 0).2 = []) ∧
    ((cooldownStep (1/5) (cooldownStep (3/10) wCombatHalf 0) 0).cooldowns 0 = some 0 ∧
      (combatStep (cooldownStep (1/5) (cooldownStep (3/10) wCombatHalf 0) 0) 0 0).1.cstate 0 =
        some CState.ATTACKING) := by
  have hds : getDistSq wCombat 0 1 = some 1 := by
    norm_num [getDistSq, wCombat, World.posOf, emptyWorld]
  have hrange : distGT (getDistSq wCombat 0 1) stPlayer.attackRange = false := by
    rw [hds]; norm_num [distGT, stPlayer]
  have h1 := (cooldown_gate wCombat 0 0 1 stPlayer stMonster CState.IDLE 0
    rfl rfl rfl (by decide) (by simp) rfl (by norm_num [stMonster]) hrange rfl
    le_rfl (by norm_num) (by norm_num [stPlayer])).1 le_rfl
  set w2 := cooldownStep (3/10) wCombatHalf 0 with hw2
  have hcd2 : w2.cooldowns 0 = some (1/5) := by
    rw [hw2]
    norm_num [cooldownStep, wCombatHalf, World.setCooldownN]
  have hds2 : getDistSq w2 0 1 = some 1 := by
    rw [hw2, getDistSq_cooldownStep]
    norm_num [getDistSq, wCombatHalf, wCombat, World.posOf, emptyWorld]
  have hrange2 : distGT (getDistSq w2 0 1) stPlayer.attackRange = false := by
    rw [hds2]; norm_num [distGT, stPlayer]
  have hs2 : w2.stats 0 = some stPlayer := by rw [hw2, cooldownStep_stats]; rfl
  have ht2 : w2.target 0 = some 1 := by rw [hw2, cooldownStep_target]; rfl
  have hc2 : w2.cstate 0 = some CState.ATTACKING := by rw [hw2, cooldownStep_cstate]; rfl
  have hts2 : w2.statsOf 1 = some stMonster := by rw [hw2, statsOf_cooldownStep]; rfl
  have h2 := (cooldown_gate w2 0 0 1 stPlayer stMonster CState.ATTACKING (1/5)
    hs2 ht2 hc2 (by decide) (by simp) hts2 (by norm_num [stMonster]) hrange2 hcd2
    le_rfl (by norm_num) (by norm_num [stPlayer])).2 (by norm_num)
  set w3 := cooldownStep (1/5) w2 0 with hw3
  have hcd3 : w3.cooldowns 0 = some 0 := by
    rw [hw3]
    unfold cooldownStep
    simp only [hcd2]
    norm_num [World.setCooldownN]
  have hds3 : getDistSq w3 0 1 = some 1 := by rw [hw3, getDistSq_cooldownStep]; exact hds2
  have hrange3 : distGT (getDistSq w3 0 1) stPlayer.attackRange = false := by
    rw [hds3]; norm_num [distGT, stPlayer]
  have hs3 : w3.stats 0 = some stPlayer := by rw [hw3, cooldownStep_stats]; exact hs2
  have ht3 : w3.target 0 = some 1 := by rw [hw3, cooldownStep_target]; exact ht2
  have hc3 : w3.cstate 0 = some CState.ATTACKING := by rw [hw3, cooldownStep_cstate]; exact hc2
  have hts3 : w3.statsOf 1 = some stMonster := by rw [hw3, statsOf_cooldownStep]; exact hts2
  have h3 := (cooldown_gate w3 0 0 1 stPlayer stMonster CState.ATTACKING 0
    hs3 ht3 hc3 (by decide) (by simp) hts3 (by norm_num [stMonster]) hrange3 hcd3
    le_rfl (by norm_num) (by norm_num [stPlayer])).1 le_rfl
  exact ⟨by norm_num [stPlayer], ⟨h1.1, h1.2.1, h1.2.2.2.2⟩,
    ⟨hcd2, h2.1, h2.2⟩, ⟨hcd3, h3.1⟩⟩

/-- Closed instance of `missing_position_unreachable`: target 1 is alive
but has no Position, so attacker 0 sees an infinite distance, chases, and
emits no attack. -/
theorem missing_position_unreachable_witness :
    getDistSq wNoPos 0 1 = none ∧
    ((combatStep wNoPos 0 0).1).cstate 0 = some CState.MOVING_TO_TARGET ∧
    (combatStep wNoPos 0 0).2 = [] :=
  missing_position_unreachable wNoPos 0 0 1 stPlayer stMonster CState.IDLE rfl rfl rfl
    (by decide) (by decide) rfl (by norm_num [stMonster]) (Or.inr rfl)

/-! ## C2 — DEAD as a (mostly) terminal state -/

theorem combatStep_cstate_frame (w : World) (roll : ℚ) (eid e : ℕ) (h : e ≠ eid) :
    ((combatStep w roll eid).1).cstate e = w.cstate e := by
  cases h1 : w.stats eid <;> cases h2 : w.target eid <;> cases h3 : w.cstate eid <;>
    simp only [combatStep, h1, h2, h3]
  split
  · rfl
  · split
    · simp [World.setTargetN, World.setCStateN, h]
    · split
      · simp [World.setTargetN, World.setCStateN, h]
      · split
        · split <;> simp [World.setMoveTargetN, World.setCStateN, h]
        · split
          · split <;> simp [World.setMoveTargetN, World.setCStateN, h]
          · split <;> split <;>
              simp [World.setMoveTargetN, World.setCStateN, World.setCooldownN, h]

theorem aiStep_cstate_frame (w : World) (p eid e : ℕ) (h : e ≠ eid) :
    (aiStep w p eid).cstate e = w.cstate e := by
  simp only [aiStep]
  split
  · rfl
  · split
    · split_ifs <;> simp [World.setTargetN, World.setCStateN, h]
    · rfl

theorem clearTargetStep_preserves (d e : ℕ) (w : World) (other : ℕ)
    (hc : w.cstate e = some CState.DEAD) (ht : w.target e ≠ some (d : ℤ)) :
    (clearTargetStep d w other).cstate e = some CState.DEAD ∧
    (clearTargetStep d w other).target e ≠ some (d : ℤ) := by
  cases hto : w.target other
  · simp only [clearTargetStep, hto]
    exact ⟨hc, ht⟩
  · rename_i t
    simp only [clearTargetStep, hto]
    by_cases hteq : t = (d : ℤ)
    · rw [if_pos hteq]
      have hoe : e ≠ other := by
        intro hcon
        subst hcon
        rw [hto] at ht
        exact ht (by rw [hteq])
      split <;> simp [World.setTargetN, World.setCStateN, hoe, hc, ht]
    · rw [if_neg hteq]
      exact ⟨hc, ht⟩

theorem scan_preserves_dead (d e : ℕ) (l : List ℕ) (w : World)
    (hc : w.cstate e = some CState.DEAD) (ht : w.target e ≠ some (d : ℤ)) :
    (l.foldl (clearTargetStep d) w).cstate e = some CState.DEAD ∧
    (l.foldl (clearTargetStep d) w).target e ≠ some (d : ℤ) := by
  induction l generalizing w with
  | nil => exact ⟨hc, ht⟩
  | cons a l ih =>
    simp only [List.foldl_cons]
    have h1 := clearTargetStep_preserves d e w a hc ht
    exact ih _ h1.1 h1.2

theorem clearTargetStep_zombie (d : ℕ) (x : ℕ) (w : World) (other : ℕ)
    (hc : w.cstate x = none) (ht : w.target x = none) :
    (clearTargetStep d w other).cstate x = none ∧
    (clearTargetStep d w other).target x = none := by
  cases hto : w.target other
  · simp only [clearTargetStep, hto]
    exact ⟨hc, ht⟩
  · rename_i t
    simp only [clearTargetStep, hto]
    have hxo : x ≠ other := by
      intro hcon
      subst hcon
      rw [hto] at ht
      cases ht
    by_cases hteq : t = (d : ℤ)
    · rw [if_pos hteq]
      split <;> simp [World.setTargetN, World.setCStateN, hxo, hc, ht]
    · rw [if_neg hteq]
      exact ⟨hc, ht⟩

theorem scan_zombie (d x : ℕ) (l : List ℕ) (w : World)
    (hc : w.cstate x = none) (ht : w.target x = none) :
    (l.foldl (clearTargetStep d) w).cstate x = none ∧
    (l.foldl (clearTargetStep d) w).target x = none := by
  induction l generalizing w with
  | nil => exact ⟨hc, ht⟩
  | cons a l ih =>
    simp only [List.foldl_cons]
    have h1 := clearTargetStep_zombie d x w a hc ht
    exact ih _ h1.1 h1.2

theorem cleanupEntity_zombie (ents : List ℕ) (w : World) (d x : ℕ)
    (hc : w.cstate x = none) (ht : w.target x = none) :
    (cleanupEntity ents w d).cstate x = none ∧
    (cleanupEntity ents w d).target x = none := by
  unfold cleanupEntity clearEntityComponents
  have h := scan_zombie d x ents w hc ht
  constructor <;> · simp only; split <;> simp [h.1, h.2]

theorem cleanupEntity_clears_self (ents : List ℕ) (w : World) (d : ℕ) :
    (cleanupEntity ents w d).cstate d = none ∧
    (cleanupEntity ents w d).target d = none := by
  unfold cleanupEntity clearEntityComponents
  constructor <;> simp

theorem cleanup_fold_zombie (ents : List ℕ) (l : List ℕ) (w : World) (x : ℕ)
    (hc : w.cstate x = none) (ht : w.target x = none) :
    ((l.foldl (cleanupEntity ents) w)).cstate x = none ∧
    ((l.foldl (cleanupEntity ents) w)).target x = none := by
  induction l generalizing w with
  | nil => exact ⟨hc, ht⟩
  | cons a l ih =>
    simp only [List.foldl_cons]
    have h1 := cleanupEntity_zombie ents w a x hc ht
    exact ih _ h1.1 h1.2

theorem cleanup_fold_clears_members (ents : List ℕ) (l : List ℕ) (w : World) (e : ℕ)
    (hmem : e ∈ l) :
    ((l.foldl (cleanupEntity ents) w)).cstate e = none := by
  induction l generalizing w with
  | nil => cases hmem
  | cons a l ih =>
    simp only [List.foldl_cons]
    rcases List.mem_cons.mp hmem with rfl | hm
    · have hz := cleanupEntity_clears_self ents w e
      by_cases hml : e ∈ l
      · exact ih _ hml
      · exact (cleanup_fold_zombie ents l _ e hz.1 hz.2).1
    · exact ih _ hm

/-- C2, counterexample: two entities die in the same tick, entity 2 still
targeting entity 1; `deathCleanupSystem` collects both, and its first
cleanup step — processing dead entity 1 — resets entity 2's CombatState
from DEAD to IDLE, overwriting a DEAD state. -/
theorem dead_overwritten_by_cleanup_cex :
    cexW.cstate 1 = some CState.DEAD ∧
    cexW.cstate 2 = some CState.DEAD ∧
    cexW.target 2 = some 1 ∧
    (deathCleanupSystem cexW [1, 2]).2 = [1, 2] ∧
    deathCleanupSystem cexW [1, 2] =
      (cleanupEntity [1, 2] (cleanupEntity [1, 2] cexW 1) 2, [1, 2]) ∧
    (cleanupEntity [1, 2] cexW 1).cstate 2 = some CState.IDLE := by
  refine ⟨rfl, rfl, rfl, rfl, rfl, ?_⟩
  simp [cleanupEntity, clearTargetStep, clearEntityComponents, cexW, emptyWorld,
    World.setTargetN, World.setCStateN]

/-- C2, amended: the combat system and the enemy AI system never
transition any entity out of DEAD, and the death-cleanup pass clears every
DEAD entity of the processed set down to no components at all (scheduled
removal); but its stale-target scan resets the state of *any* entity
targeting a dying entity to IDLE without checking that it is itself DEAD,
so only entities not targeting a cleaned-up entity are guaranteed to keep
their DEAD state during the pass. -/
theorem dead_state_preservation :
    (∀ (w : World) (roll : ℚ) (eid e : ℕ), w.cstate e = some CState.DEAD →
      ((combatStep w roll eid).1).cstate e = some CState.DEAD) ∧
    (∀ (w : World) (p eid e : ℕ), w.cstate e = some CState.DEAD →
      (aiStep w p eid).cstate e = some CState.DEAD) ∧
    (∀ (ents : List ℕ) (w : World) (d e : ℕ), e ≠ d →
      w.cstate e = some CState.DEAD → w.target e ≠ some (d : ℤ) →
      (cleanupEntity ents w d).cstate e = some CState.DEAD) ∧
    (∀ (w : World) (ents : List ℕ) (e : ℕ), e ∈ ents →
      w.cstate e = some CState.DEAD →
      ((deathCleanupSystem w ents).1).cstate e = none) := by
  refine ⟨?_, ?_, ?_, ?_⟩
  · intro w roll eid e hc
    by_cases he : e = eid
    · subst he
      unfold combatStep
      rw [hc]
      cases h1 : w.stats e <;> cases h2 : w.target e <;> simp [h1, h2, hc]
    · rw [combatStep_cstate_frame w roll eid e he]
      exact hc
  · intro w p eid e hc
    by_cases he : e = eid
    · subst he
      unfold aiStep
      rw [hc]
      cases hm : w.monster e <;> cases h2 : w.target e <;> cases h4 : w.pos e <;>
        simp [hm, h2, h4, hc]
    · rw [aiStep_cstate_frame w p eid e he]
      exact hc
  · intro ents w d e hne hc ht
    unfold cleanupEntity clearEntityComponents
    have h := scan_preserves_dead d e ents w hc ht
    simp only
    rw [if_neg hne]
    exact h.1
  · intro w ents e hmem hc
    unfold deathCleanupSystem
    simp only
    apply cleanup_fold_clears_members
    exact List.mem_filter.mpr ⟨hmem, by simp [hc]⟩

/-- Closed instance of `dead_state_preservation` on the lone dead entity
3: combat and AI steps leave it DEAD, a cleanup of an unrelated entity
leaves it DEAD, and a full cleanup pass removes its state entirely. -/
theorem dead_state_preservation_witness :
    ((combatStep wDeadSolo 0 3).1).cstate 3 = some CState.DEAD ∧
    (aiStep wDeadSolo 0 3).cstate 3 = some CState.DEAD ∧
    (cleanupEntity [3] wDeadSolo 7).cstate 3 = some CState.DEAD ∧
    ((deathCleanupSystem wDeadSolo [3]).1).cstate 3 = none :=
  ⟨dead_state_preservation.1 wDeadSolo 0 3 3 rfl,
    dead_state_preservation.2.1 wDeadSolo 0 3 3 rfl,
    dead_state_preservation.2.2.1 [3] wDeadSolo 7 3 (by decide) rfl (by simp [wDeadSolo, emptyWorld]),
    dead_state_preservation.2.2.2 wDeadSolo [3] 3 (by simp) rfl⟩

/-! ## C4 — validity of returned paths -/

theorem mem_insertByF (x : PNode) :
    ∀ (l : List PNode) (n : PNode), n ∈ insertByF x l → n = x ∨ n ∈ l := by
  intro l
  induction l with
  | nil =>
    intro n hn
    simp only [insertByF] at hn
    exact Or.inl (List.mem_singleton.mp hn)
  | cons a l ih =>
    intro n hn
    simp only [insertByF] at hn
    by_cases hle : a.f ≤ x.f
    · rw [if_pos hle] at hn
      rcases List.mem_cons.mp hn with rfl | hmem
      · exact Or.inr (List.mem_cons_self _ _)
      · rcases ih n hmem with h | h
        · exact Or.inl h
        · exact Or.inr (List.mem_cons_of_mem _ h)
    · rw [if_neg hle] at hn
      rcases List.mem_cons.mp hn with rfl | hmem
      · exact Or.inl rfl
      · exact Or.inr hmem

theorem mem_sortByF : ∀ (l : List PNode) (n : PNode), n ∈ sortByF l → n ∈ l := by
  intro l
  induction l with
  | nil =>
    intro n hn
    simp only [sortByF] at hn
    cases hn
  | cons a l ih =>
    intro n hn
    simp only [sortByF] at hn
    rcases mem_insertByF a _ n hn with rfl | hmem
    · exact List.mem_cons_self _ _
    · exact List.mem_cons_of_mem _ (ih n hmem)

theorem updateFirst_good (m : GridMap) (s : ℤ × ℤ) (nx ny : ℤ) (g : ℚ) (par : PNode)
    (hwall : wallAtZ m nx ny = false) (hpar : goodN m s par) :
    ∀ (l : List PNode), (∀ n ∈ l, goodN m s n) →
    ∀ n ∈ updateFirst nx ny g par l, goodN m s n := by
  intro l
  induction l with
  | nil =>
    intro _ n hn
    simp only [updateFirst] at hn
    cases hn
  | cons a l ih =>
    intro hall n hn
    simp only [updateFirst] at hn
    by_cases haeq : a.x = nx ∧ a.y = ny
    · rw [if_pos haeq] at hn
      rcases List.mem_cons.mp hn with rfl | hmem
      · exact ⟨by rw [haeq.1, haeq.2]; exact hwall, hpar⟩
      · exact hall _ (List.mem_cons_of_mem _ hmem)
    · rw [if_neg haeq] at hn
      rcases List.mem_cons.mp hn with rfl | hmem
      · exact hall _ (List.mem_cons_self _ _)
      · exact ih (fun n2 hn2 => hall _ (List.mem_cons_of_mem _ hn2)) _ hmem

theorem neighborStep_good (m : GridMap) (s endC : ℤ × ℤ) (closed : List (ℤ × ℤ))
    (cur : PNode) (openL : List PNode) (off : ℤ × ℤ)
    (hcur : goodN m s cur) (hopen : ∀ n ∈ openL, goodN m s n) :
    ∀ n ∈ neighborStep m endC closed cur openL off, goodN m s n := by
  intro n hn
  simp only [neighborStep] at hn
  split_ifs at hn with h1 h2 h3 h4
  · exact hopen n hn
  · exact hopen n hn
  · exact hopen n hn
  · split at hn
    · rcases List.mem_append.mp hn with hmem | hmem
      · exact hopen n hmem
      · rw [List.mem_singleton.mp hmem]
        exact ⟨eq_false_of_ne_true h2, hcur⟩
    · split at hn
      · exact updateFirst_good m s _ _ _ cur (eq_false_of_ne_true h2) hcur openL hopen n hn
      · exact hopen n hn
  · split at hn
    · rcases List.mem_append.mp hn with hmem | hmem
      · exact hopen n hmem
      · rw [List.mem_singleton.mp hmem]
        exact ⟨eq_false_of_ne_true h2, hcur⟩
    · split at hn
      · exact updateFirst_good m s _ _ _ cur (eq_false_of_ne_true h2) hcur openL hopen n hn
      · exact hopen n hn

theorem foldl_neighborStep_good (m : GridMap) (s endC : ℤ × ℤ) (closed : List (ℤ × ℤ))
    (cur : PNode) (hcur : goodN m s cur) :
    ∀ (offs : List (ℤ × ℤ)) (openL : List PNode), (∀ n ∈ openL, goodN m s n) →
    ∀ n ∈ offs.foldl (neighborStep m endC closed cur) openL, goodN m s n := by
  intro offs
  induction offs with
  | nil => intro openL h n hn; exact h n hn
  | cons o offs ih =>
    intro openL h
    simp only [List.foldl_cons]
    exact ih _ (neighborStep_good m s endC closed cur openL o hcur h)

theorem chain_structure (m : GridMap) (s : ℤ × ℤ) :
    ∀ (n : PNode), goodN m s n →
    ∃ l, n.chain = l ++ [center s.1 s.2] ∧
      ∀ q ∈ l, ∃ x y, q = center x y ∧ wallAtZ m x y = false := by
  intro n
  induction n with
  | root x y g h f =>
    intro hg
    refine ⟨[], ?_, by simp⟩
    simp only [PNode.chain, List.nil_append]
    rw [← hg]
  | child x y g h f p ih =>
    intro hg
    obtain ⟨hw, hp⟩ := hg
    obtain ⟨l, hl, hql⟩ := ih hp
    refine ⟨center x y :: l, ?_, ?_⟩
    · simp [PNode.chain, hl]
    · intro q hq
      rcases List.mem_cons.mp hq with rfl | hmem
      · exact ⟨x, y, rfl, hw⟩
      · exact hql q hmem

theorem astarLoop_good (m : GridMap) (s endC : ℤ × ℤ) :
    ∀ (fuel : ℕ) (openL : List PNode) (closed : List (ℤ × ℤ)) (path : List (ℚ × ℚ)),
      (∀ n ∈ openL, goodN m s n) →
      astarLoop m endC fuel openL closed = some path →
      path = [] ∨ ∃ l, path = center s.1 s.2 :: l ∧
        ∀ q ∈ l, ∃ x y, q = center x y ∧ wallAtZ m x y = false := by
  intro fuel
  induction fuel with
  | zero =>
    intro openL closed path _ h
    cases h
  | succ fuel ih =>
    intro openL closed path hgood h
    simp only [astarLoop] at h
    cases hs : sortByF openL with
    | nil =>
      rw [hs] at h
      simp only [Option.some.injEq] at h
      exact Or.inl h.symm
    | cons cur rest =>
      rw [hs] at h
      simp only at h
      have hcurgood : goodN m s cur :=
        hgood _ (mem_sortByF openL cur (hs ▸ List.mem_cons_self _ _))
      have hrest : ∀ n ∈ rest, goodN m s n := fun n hn =>
        hgood _ (mem_sortByF openL n (hs ▸ List.mem_cons_of_mem _ hn))
      by_cases hend : cur.x = endC.1 ∧ cur.y = endC.2
      · rw [if_pos hend] at h
        simp only [Option.some.injEq] at h
        obtain ⟨l, hchain, hql⟩ := chain_structure m s cur hcurgood
        refine Or.inr ⟨l.reverse, ?_, ?_⟩
        · rw [← h, hchain]
          simp
        · intro q hq
          exact hql q (List.mem_reverse.mp hq)
      · rw [if_neg hend] at h
        exact ih _ _ _
          (foldl_neighborStep_good m s endC _ cur hcurgood offsets rest hrest) h

/-- C4, amended: a non-empty returned path starts at the center of the
start cell — which is pushed onto the open list without any wall check and
may be a wall cell — while every later waypoint is the center of a cell
that passed the wall check; a wall destination or an exhausted open set
still yields the empty path, never a partial one. -/
theorem findPath_validity :
    (∀ (m : GridMap) (fuel : ℕ) (sx sy ex ey : ℚ) (path : List (ℚ × ℚ)),
      findPath m fuel sx sy ex ey = some path → path ≠ [] →
      path.head? = some (center ⌊sx⌋ ⌊sy⌋) ∧
      ∀ q ∈ path.tail, ∃ x y, q = center x y ∧ wallAtZ m x y = false) ∧
    (∀ (m : GridMap) (fuel : ℕ) (sx sy ex ey : ℚ),
      wallAtZ m ⌊ex⌋ ⌊ey⌋ = true → findPath m fuel sx sy ex ey = some []) ∧
    (∀ (m : GridMap) (endC : ℤ × ℤ) (fuel : ℕ) (closed : List (ℤ × ℤ)),
      astarLoop m endC (fuel + 1) [] closed = some []) := by
  refine ⟨?_, ?_, ?_⟩
  · intro m fuel sx sy ex ey path h hne
    simp only [findPath] at h
    by_cases hwall : wallAtZ m ⌊ex⌋ ⌊ey⌋ = true
    · rw [if_pos hwall] at h
      simp only [Option.some.injEq] at h
      exact absurd h.symm hne
    · rw [if_neg hwall] at h
      have hinit : ∀ n ∈ [PNode.root ⌊sx⌋ ⌊sy⌋ 0 0 0], goodN m (⌊sx⌋, ⌊sy⌋) n := by
        intro n hn
        rw [List.mem_singleton.mp hn]
        exact rfl
      rcases astarLoop_good m (⌊sx⌋, ⌊sy⌋) (⌊ex⌋, ⌊ey⌋) fuel _ [] path hinit h with
        hempty | ⟨l, hl, hql⟩
      · exact absurd hempty hne
      · subst hl
        exact ⟨rfl, hql⟩
  · intro m fuel sx sy ex ey hwall
    simp only [findPath]
    rw [if_pos hwall]
  · intro m endC fuel closed
    rfl

/-- C4, counterexample: with the start position inside the wall cell
(-1, 0) and the goal on the adjacent floor cell, `findPath` returns a path
whose first waypoint is the center of that wall cell — so not every
waypoint of a returned path lies on a non-wall cell. -/
theorem findPath_wall_start_cex :
    findPath cexMap 10 (-1) 0 0 0 = some [(-(1 : ℚ)/2, 1/2), (1/2, 1/2)] ∧
    (-(1 : ℚ)/2, (1 : ℚ)/2) = center (-1) 0 ∧
    wallAtZ cexMap (-1) 0 = true := by
  refine ⟨?_, by norm_num [center], ?_⟩
  · norm_num [findPath, astarLoop, wallAtZ, isWall, tileAt, cexMap, sortByF, insertByF,
      offsets, neighborStep, findNode, updateFirst, PNode.chain, center,
      PNode.x, PNode.y, PNode.g, PNode.h, PNode.f]
    intro h
    cases h
  · norm_num [wallAtZ, isWall, tileAt, cexMap]

/-- Closed instance of `findPath_validity`: the path found on `cexMap`
from the floor cell (0,0) to (1,0) starts at the start-cell center and
continues over floor cells only, and a query whose goal is the wall cell
(-1, 0) returns the empty path. -/
theorem findPath_validity_witness :
    ([((1 : ℚ)/2, 1/2), (3/2, 1/2)].head? = some (center ⌊(0 : ℚ)⌋ ⌊(0 : ℚ)⌋)) ∧
    (∀ q ∈ [((1 : ℚ)/2, 1/2), (3/2, 1/2)].tail,
      ∃ x y, q = center x y ∧ wallAtZ cexMap x y = false) ∧
    findPath cexMap 10 3 0 (-1) 0 = some [] := by
  have hfp : findPath cexMap 10 0 0 1 0 = some [((1 : ℚ)/2, 1/2), (3/2, 1/2)] := by
    norm_num [findPath, astarLoop, wallAtZ, isWall, tileAt, cexMap, sortByF, insertByF,
      offsets, neighborStep, findNode, updateFirst, PNode.chain, center,
      PNode.x, PNode.y, PNode.g, PNode.h, PNode.f]
    intro h
    cases h
  have h := findPath_validity.1 cexMap 10 0 0 1 0 _ hfp (by simp)
  refine ⟨h.1, h.2, ?_⟩
  exact findPath_validity.2.1 cexMap 10 3 0 (-1) 0
    (by norm_num [wallAtZ, isWall, tileAt, cexMap])

end AetherSlash
